import Mathlib

/-!
# Verification of the CMS hospital-dataset processor

Shallow embedding of `src/main.py` (class `CMSDataProcessor`): the header
normalizer `_to_snake_case`, the version tracker (`_needs_update`,
`_update_metadata` over the SQLite table `processed_files`), and the
per-dataset pipeline `_process_dataset`.

Strings handled by the normalizer are modelled as lists of character codes
(`List Nat`), since the Python code manipulates individual characters with
`isupper` / `lower` / `lstrip` / `replace`.  The model restricts attention to
ASCII inputs (codes < 128), on which Python's `str.isupper` is exactly
65 ≤ c ≤ 90 and `str.lower` adds 32; CMS column headers are ASCII.
-/

namespace HPCMS

/-- Character codes of a string literal (Python strings are sequences of
code points). -/
def pyStr (s : String) : List Nat :=
  s.data.map Char.toNat

/-- Codes back to a string, for stating results over `String`. -/
def codesToStr (l : List Nat) : String :=
  ⟨l.map Char.ofNat⟩

/-- One character of the list comprehension in `_to_snake_case`
(src/main.py line 44): `'_' + c.lower() if c.isupper() else c`. -/
def snakeExpand (c : Nat) : List Nat :=
  if 65 ≤ c ∧ c ≤ 90 then [95, c + 32] else [c]

/-- `''.join([... for c in col_name])` (src/main.py lines 44-45). -/
def snakeJoin : List Nat → List Nat
  | [] => []
  | c :: rest => snakeExpand c ++ snakeJoin rest

/-- `_to_snake_case` (src/main.py lines 39-45):
`''.join(['_' + c.lower() if c.isupper() else c for c in col_name])
  .lstrip('_').replace(' ', '_')`.
Code 95 is `'_'`, code 32 is `' '`. -/
def toSnakeCase (s : List Nat) : List Nat :=
  ((snakeJoin s).dropWhile (fun c => c == 95)).map (fun c => if c == 32 then 95 else c)

/-- `_to_snake_case` on `String` inputs. -/
def toSnakeCaseStr (s : String) : String :=
  codesToStr (toSnakeCase (pyStr s))

/-! ## Data model

The version tracker's SQLite table `processed_files` (dataset_id PRIMARY KEY,
last_modified, last_processed) is modelled as an association list with unique
keys; files on disk as an association list from path to content.  A CSV file
is modelled structurally (header row and data rows, every cell a string,
matching `dtype=str`); a downloaded body that `pd.read_csv` would reject is
`FileData.malformed` carrying the parse-error message. -/

/-- One row of the `processed_files` table (src/main.py lines 31-37). -/
structure TrackRec where
  lastModified : String
  lastProcessed : String
deriving DecidableEq, Repr

/-- The `processed_files` table: dataset_id is the primary key. -/
abbrev TrackerDB : Type := List (String × TrackRec)

/-- Parsed tabular content: header and data rows, all cells text
(`dtype=str`, src/main.py line 78). -/
structure Csv where
  header : List String
  rows : List (List String)
deriving DecidableEq, Repr

/-- Contents of a file on disk: either bytes that parse as CSV, or bytes
`pd.read_csv` rejects with the given error message. -/
inductive FileData where
  | malformed (msg : String)
  | table (c : Csv)
deriving DecidableEq, Repr

/-- The file system: path to content. -/
abbrev FsMap : Type := List (String × FileData)

/-- Observable network / dataset-file effects of one pipeline run (the
version tracker's own backing store is a separate component and is not a
dataset-file effect). -/
inductive Effect where
  | net (url : String)
  | fileWrite (path : String)
  | fileRead (path : String)
  | fileRemove (path : String)
deriving DecidableEq, Repr

/-- Mutable state touched by `_process_dataset`: tracker table, files,
printed log lines, and the effect trace. -/
structure World where
  tracker : TrackerDB
  files : FsMap
  log : List String
  trace : List Effect
deriving DecidableEq, Repr

/-- An HTTP response: status code and body (src/main.py lines 62-69). -/
structure Response where
  status : Nat
  body : FileData
deriving DecidableEq, Repr

/-- One entry of a dataset's `distribution` array; `downloadURL` may be
missing. -/
structure Dist where
  downloadURL : Option String
deriving DecidableEq, Repr

/-- A catalog dataset descriptor (a JSON object; every key may be absent). -/
structure Dataset where
  identifier : Option String
  modified : Option String
  distribution : Option (List Dist)
deriving DecidableEq, Repr

/-! ## Version tracker operations -/

/-- `SELECT last_modified, last_processed FROM processed_files WHERE
dataset_id = ?` (key lookup in the table). -/
def dbLookup : TrackerDB → String → Option TrackRec
  | [], _ => none
  | (k, r) :: t, id => if k = id then some r else dbLookup t id

/-- `_update_metadata` (src/main.py lines 107-114): `INSERT OR REPLACE INTO
processed_files VALUES (?, ?, ?)` with the current timestamp. -/
def updateMetadata (tr : TrackerDB) (id modifiedDate now : String) : TrackerDB :=
  (id, ⟨modifiedDate, now⟩) :: (tr : List (String × TrackRec)).filter (fun p => p.1 != id)

/-- `_needs_update` (src/main.py lines 97-105):
`not result or result[0] != modified_date`. -/
def needsUpdate (tr : TrackerDB) (id modifiedDate : String) : Bool :=
  match dbLookup tr id with
  | none => true
  | some r => r.lastModified != modifiedDate

/-! ## File system operations -/

/-- Read a path. -/
def fsLookup : FsMap → String → Option FileData
  | [], _ => none
  | (k, d) :: t, p => if k = p then some d else fsLookup t p

/-- Write a path fresh (`open(..., 'wb')` / `to_csv(..., mode='w')`:
truncates any prior content). -/
def fsWrite (fs : FsMap) (p : String) (d : FileData) : FsMap :=
  (p, d) :: (fs : List (String × FileData)).filter (fun q => q.1 != p)

/-- `os.remove` (src/main.py line 89). -/
def fsRemove (fs : FsMap) (p : String) : FsMap :=
  (fs : List (String × FileData)).filter (fun q => q.1 != p)

/-! ## Chunked transform (src/main.py lines 73-86) -/

/-- Splitting a row list into consecutive chunks, as
`pd.read_csv(..., chunksize=n)` yields them; a file with no data rows yields
no chunks. -/
def chunksOf : Nat → List α → List (List α)
  | _, [] => []
  | 0, l => [l]
  | n + 1, x :: xs => (x :: xs.take n) :: chunksOf (n + 1) (xs.drop n)
termination_by _ l => l.length
decreasing_by
  simp only [List.length_cons, List.length_drop]
  omega

/-- `chunk.to_csv(output_path, mode='a', header=False, index=False)`
(src/main.py line 86): rows are appended to the existing CSV. -/
def appendRows (fs : FsMap) (p : String) (rs : List (List String)) : FsMap :=
  match fsLookup fs p with
  | some (.table c) => fsWrite fs p (.table ⟨c.header, c.rows ++ rs⟩)
  | _ => fsWrite fs p (.table ⟨[], rs⟩)

/-- The `for chunk in pd.read_csv(...)` loop with its `first_chunk` flag
(src/main.py lines 73-86): the first chunk normalizes the headers and writes
the output file fresh (`mode='w'`); later chunks append rows only. -/
def chunkLoop (out : String) (hdr : List String) :
    List (List (List String)) → Bool → World → World
  | [], _, w => w
  | ch :: rest, true, w =>
      chunkLoop out hdr rest false
        { w with files := fsWrite w.files out (.table ⟨hdr.map toSnakeCaseStr, ch⟩),
                 trace := w.trace ++ [Effect.fileWrite out] }
  | ch :: rest, false, w =>
      chunkLoop out hdr rest false
        { w with files := appendRows w.files out ch,
                 trace := w.trace ++ [Effect.fileWrite out] }

/-- The whole chunked normalize-and-append phase for one parsed CSV, with
chunk size `n` (the source fixes `n = 5000`, src/main.py line 76). -/
def writeCsvChunks (out : String) (n : Nat) (c : Csv) (w : World) : World :=
  chunkLoop out c.header (chunksOf n c.rows) true w

/-! ## The per-dataset pipeline (src/main.py lines 47-95) -/

/-- `dataset['distribution'][0]['downloadURL']` (src/main.py line 57); each
missing piece raises the corresponding Python exception. -/
def getDownloadUrl (d : Dataset) : Except String String :=
  match d.distribution with
  | none => .error "KeyError: 'distribution'"
  | some [] => .error "IndexError: list index out of range"
  | some (e :: _) =>
    match e.downloadURL with
    | none => .error "KeyError: 'downloadURL'"
    | some u => .ok u

/-- Success path inside the `status_code == 200` branch once the staging
file parses: chunked transform, temp-file cleanup, metadata commit, success
log line (src/main.py lines 73-92). -/
def transformAndCommit (id modifiedDate now out temp : String) (c : Csv) (w : World) : World :=
  let w1 := writeCsvChunks out 5000 c w
  let w2 := { w1 with files := fsRemove w1.files temp,
                      trace := w1.trace ++ [Effect.fileRemove temp] }
  let w3 := { w2 with tracker := updateMetadata w2.tracker id modifiedDate now }
  { w3 with log := w3.log ++ ["Successfully processed " ++ id] }

/-- Body of the `try:` block of `_process_dataset` after `dataset_id` is
bound (src/main.py lines 50-92).  `http` is the network: per URL, either a
response or a raised connection error.  A `.error` result is a Python
exception escaping the body, paired with the state already mutated. -/
def processBody (http : String → Except String Response) (now : String)
    (d : Dataset) (id : String) (w : World) : Except (String × World) World :=
  let modifiedDate := d.modified.getD ""
  if needsUpdate w.tracker id modifiedDate then
    match getDownloadUrl d with
    | .error e => .error (e, w)
    | .ok url =>
      let out := "data/processed/" ++ id ++ ".csv"
      let w := { w with trace := w.trace ++ [Effect.net url] }
      match http url with
      | .error e => .error (e, w)
      | .ok resp =>
        if resp.status = 200 then
          let temp := "data/processed/temp_" ++ id ++ ".csv"
          let w := { w with files := fsWrite w.files temp resp.body,
                            trace := w.trace ++ [Effect.fileWrite temp] }
          let w := { w with trace := w.trace ++ [Effect.fileRead temp] }
          match resp.body with
          | .malformed e => .error (e, w)
          | .table c =>
            .ok (transformAndCommit id modifiedDate now out temp c w)
        else
          .ok w
    else
      .ok { w with log := w.log ++ ["Skipping " ++ id ++ " - already up to date"] }

/-- `_process_dataset` (src/main.py lines 47-95).  The `except` handler
(line 94-95) logs `"Error processing {dataset_id}: {e}"` — but when
`dataset['identifier']` itself raised, `dataset_id` is unbound and the
handler raises `UnboundLocalError`, which escapes the function; that is the
only way `_process_dataset` itself raises. -/
def processDataset (http : String → Except String Response) (now : String)
    (d : Dataset) (w : World) : Except String World :=
  match d.identifier with
  | none => .error "UnboundLocalError: local variable referenced before assignment"
  | some id =>
    match processBody http now d id w with
    | .ok w' => .ok w'
    | .error (e, w') =>
      .ok { w' with log := w'.log ++ ["Error processing " ++ id ++ ": " ++ e] }

/-- All pipeline steps up to the metadata commit succeed for `d` from state
`w`: the dataset is stale, the URL is present, the download returns 200, and
the staging file parses as CSV. -/
def fullSuccess (http : String → Except String Response) (d : Dataset) (w : World) : Prop :=
  ∃ id url resp, d.identifier = some id
    ∧ needsUpdate w.tracker id (d.modified.getD "") = true
    ∧ getDownloadUrl d = .ok url
    ∧ http url = .ok resp
    ∧ resp.status = 200
    ∧ ∃ c, resp.body = .table c

/-! ## Concrete fixtures for witnesses and counterexamples -/

/-- Empty initial state: fresh tracker, no files, no log, no effects. -/
def w0 : World := ⟨[], [], [], []⟩

/-- A small two-column CSV body. -/
def csvSmall : Csv := ⟨["A B", "C"], [["1", "2"], ["3", "4"], ["5", "6"]]⟩

/-- A fully well-formed catalog descriptor. -/
def dsOk : Dataset :=
  ⟨some "ds1", some "2024-01-01", some [⟨some "http://cms.example/ds1.csv"⟩]⟩

/-- A malformed descriptor lacking the `identifier` key. -/
def dsNoId : Dataset :=
  ⟨none, some "2024-01-01", some [⟨some "http://cms.example/x.csv"⟩]⟩

/-- A descriptor lacking the `modified` key. -/
def dsNoMod : Dataset :=
  ⟨some "ds2", none, some [⟨some "http://cms.example/ds2.csv"⟩]⟩

/-- Network answering every URL with 200 and `csvSmall`. -/
def httpOk : String → Except String Response :=
  fun _ => .ok ⟨200, .table csvSmall⟩

/-- Network answering every URL with HTTP 500. -/
def http500 : String → Except String Response :=
  fun _ => .ok ⟨500, .table csvSmall⟩

/-- Network refusing every connection. -/
def httpDown : String → Except String Response :=
  fun _ => .error "ConnectionError"

/-- State in which `ds1` was already processed at its current token. -/
def wSeen : World := ⟨[("ds1", ⟨"2024-01-01", "t0"⟩)], [], [], []⟩

/-- Result of the short-circuit run of `dsOk` from `wSeen`. -/
def wSkip : World :=
  { wSeen with log := wSeen.log ++ ["Skipping " ++ "ds1" ++ " - already up to date"] }

/-- Result state of a successful first run of `dsOk` from `w0`. -/
def wAfterOk : World :=
  match processDataset httpOk "t1" dsOk w0 with
  | .ok w => w
  | .error _ => w0

/-- Result state of a successful first run of `dsNoMod` from `w0`. -/
def wAfterNoMod : World :=
  match processDataset httpOk "t1" dsNoMod w0 with
  | .ok w => w
  | .error _ => w0

/-! ## Helper lemmas -/

lemma append_x_ne (s : String) : s ++ "x" ≠ s := by
  intro h
  have h2 := congrArg String.length h
  simp [String.length_append] at h2
  exact absurd h2 (by decide)

lemma dbLookup_updateMetadata_self (tr : TrackerDB) (id m now : String) :
    dbLookup (updateMetadata tr id m now) id = some ⟨m, now⟩ := by
  simp [updateMetadata, dbLookup]

lemma needsUpdate_updateMetadata_self (tr : TrackerDB) (id m now : String) :
    needsUpdate (updateMetadata tr id m now) id m = false := by
  simp [needsUpdate, dbLookup_updateMetadata_self]

lemma fsLookup_fsWrite_self (fs : FsMap) (p : String) (d : FileData) :
    fsLookup (fsWrite fs p d) p = some d := by
  simp [fsWrite, fsLookup]

lemma chunkLoop_tracker (out : String) (hdr : List String) :
    ∀ (cs : List (List (List String))) (b : Bool) (w : World),
      (chunkLoop out hdr cs b w).tracker = w.tracker := by
  intro cs
  induction cs with
  | nil => intro b w; cases b <;> rfl
  | cons ch rest ih => intro b w; cases b <;> simp [chunkLoop, ih]

lemma chunkLoop_log (out : String) (hdr : List String) :
    ∀ (cs : List (List (List String))) (b : Bool) (w : World),
      (chunkLoop out hdr cs b w).log = w.log := by
  intro cs
  induction cs with
  | nil => intro b w; cases b <;> rfl
  | cons ch rest ih => intro b w; cases b <;> simp [chunkLoop, ih]

lemma chunkLoop_append (out : String) (hdr : List String) :
    ∀ (cs : List (List (List String))) (w : World) (H : List String)
      (R : List (List String)),
      fsLookup w.files out = some (.table ⟨H, R⟩) →
      fsLookup (chunkLoop out hdr cs false w).files out = some (.table ⟨H, R ++ cs.flatten⟩) := by
  intro cs
  induction cs with
  | nil => intro w H R h; simpa [chunkLoop] using h
  | cons ch rest ih =>
    intro w H R h
    simp only [chunkLoop]
    have h2 := ih { w with files := appendRows w.files out ch,
                           trace := w.trace ++ [Effect.fileWrite out] } H (R ++ ch) ?_
    · simpa [List.append_assoc] using h2
    · simp [appendRows, h, fsLookup_fsWrite_self]

lemma chunkLoop_first (out : String) (hdr : List String) (c : List (List String))
    (cs : List (List (List String))) (w : World) :
    fsLookup (chunkLoop out hdr (c :: cs) true w).files out
      = some (.table ⟨hdr.map toSnakeCaseStr, c ++ cs.flatten⟩) := by
  simp only [chunkLoop]
  exact chunkLoop_append out hdr cs _ _ _ (by simp [fsLookup_fsWrite_self])

lemma chunksOf_flatten : ∀ (n : Nat) (l : List α), (chunksOf n l).flatten = l
  | _, [] => by simp [chunksOf]
  | 0, x :: xs => by simp [chunksOf]
  | n + 1, x :: xs => by
    rw [chunksOf]
    have ih := chunksOf_flatten (n + 1) (xs.drop n)
    simp [ih, List.take_append_drop]
termination_by _ l => l.length
decreasing_by
  simp only [List.length_cons, List.length_drop]
  omega

lemma chunksOf_cons_of_ne_nil (n : Nat) (l : List α) (h : l ≠ []) :
    ∃ c cs, chunksOf n l = c :: cs := by
  cases l with
  | nil => exact absurd rfl h
  | cons x xs => cases n <;> simp [chunksOf]

lemma writeCsvChunks_out (out : String) (n : Nat) (hdr : List String)
    (rows : List (List String)) (w : World) (h : rows ≠ []) :
    fsLookup (writeCsvChunks out n ⟨hdr, rows⟩ w).files out
      = some (.table ⟨hdr.map toSnakeCaseStr, rows⟩) := by
  obtain ⟨c, cs, hc⟩ := chunksOf_cons_of_ne_nil n rows h
  have hj : c ++ cs.flatten = rows := by
    have := chunksOf_flatten n rows
    rw [hc] at this
    simpa using this
  unfold writeCsvChunks
  rw [hc, chunkLoop_first, hj]

lemma transformAndCommit_tracker (id m now out temp : String) (c : Csv) (w : World) :
    (transformAndCommit id m now out temp c w).tracker
      = updateMetadata w.tracker id m now := by
  simp [transformAndCommit, writeCsvChunks, chunkLoop_tracker]

lemma transformAndCommit_log (id m now out temp : String) (c : Csv) (w : World) :
    (transformAndCommit id m now out temp c w).log
      = w.log ++ ["Successfully processed " ++ id] := by
  simp [transformAndCommit, writeCsvChunks, chunkLoop_log]

/-! ## Pipeline characterization lemmas -/

lemma processDataset_skip (http : String → Except String Response) (now : String)
    (d : Dataset) (w : World) (id : String)
    (hid : d.identifier = some id)
    (hnu : needsUpdate w.tracker id (d.modified.getD "") = false) :
    processDataset http now d w
      = .ok { w with log := w.log ++ ["Skipping " ++ id ++ " - already up to date"] } := by
  simp [processDataset, processBody, hid, hnu]

lemma processDataset_success (http : String → Except String Response)
    (now : String) (d : Dataset) (w : World) (id url : String)
    (resp : Response) (c : Csv)
    (hid : d.identifier = some id)
    (hnu : needsUpdate w.tracker id (d.modified.getD "") = true)
    (hurl : getDownloadUrl d = .ok url)
    (hhttp : http url = .ok resp)
    (hst : resp.status = 200)
    (hbody : resp.body = .table c) :
    processDataset http now d w
      = .ok (transformAndCommit id (d.modified.getD "") now
          ("data/processed/" ++ id ++ ".csv")
          ("data/processed/temp_" ++ id ++ ".csv") c
          { w with
            files := fsWrite w.files ("data/processed/temp_" ++ id ++ ".csv") resp.body,
            trace := w.trace ++ [Effect.net url]
              ++ [Effect.fileWrite ("data/processed/temp_" ++ id ++ ".csv")]
              ++ [Effect.fileRead ("data/processed/temp_" ++ id ++ ".csv")] }) := by
  simp [processDataset, processBody, hid, hnu, hurl, hhttp, hst, hbody]


lemma processDataset_tracker_cases (http : String → Except String Response)
    (now : String) (d : Dataset) (w w' : World)
    (h : processDataset http now d w = .ok w') :
    w'.tracker = w.tracker ∨
      (fullSuccess http d w ∧
        w'.tracker = updateMetadata w.tracker (d.identifier.getD "")
          (d.modified.getD "") now) := by
  cases hid : d.identifier with
  | none => simp [processDataset, hid] at h
  | some id =>
    by_cases hnu : needsUpdate w.tracker id (d.modified.getD "") = true
    · cases hurl : getDownloadUrl d with
      | error e =>
        simp [processDataset, processBody, hid, hnu, hurl] at h
        left
        rw [← h]
      | ok url =>
        cases hhttp : http url with
        | error e =>
          simp [processDataset, processBody, hid, hnu, hurl, hhttp] at h
          left
          rw [← h]
        | ok resp =>
          by_cases hst : resp.status = 200
          · cases hbody : resp.body with
            | malformed e =>
              simp [processDataset, processBody, hid, hnu, hurl, hhttp, hst, hbody] at h
              left
              rw [← h]
            | table c =>
              simp [processDataset, processBody, hid, hnu, hurl, hhttp, hst, hbody] at h
              right
              constructor
              · exact ⟨id, url, resp, hid, hnu, hurl, hhttp, hst, c, hbody⟩
              · rw [← h, transformAndCommit_tracker]
                simp [hid]
          · simp [processDataset, processBody, hid, hnu, hurl, hhttp, hst] at h
            left
            rw [← h]
    · simp only [Bool.not_eq_true] at hnu
      rw [processDataset_skip http now d w id hid hnu] at h
      simp only [Except.ok.injEq] at h
      left
      rw [← h]


/-! ## Header-normalizer lemmas -/

lemma snakeJoin_of_no_upper (s : List Nat) (h : ∀ c ∈ s, ¬(65 ≤ c ∧ c ≤ 90)) :
    snakeJoin s = s := by
  induction s with
  | nil => rfl
  | cons c t ih =>
    simp only [snakeJoin, snakeExpand]
    rw [if_neg (h c (by simp))]
    simp [ih (fun x hx => h x (by simp [hx]))]

lemma dropWhile_underscore_eq_self (l : List Nat) (h : l.head? ≠ some 95) :
    l.dropWhile (fun c => c == 95) = l := by
  cases l with
  | nil => rfl
  | cons a t =>
    simp only [List.head?] at h
    rw [List.dropWhile_cons]
    simp at h ⊢
    omega

lemma map_space_eq_self (l : List Nat) (h : ∀ c ∈ l, c ≠ 32) :
    l.map (fun c => if c == 32 then 95 else c) = l := by
  induction l with
  | nil => rfl
  | cons a t ih =>
    simp only [List.map_cons]
    rw [if_neg (by simpa using h a (by simp))]
    rw [ih (fun x hx => h x (by simp [hx]))]

lemma toSnakeCase_cons_underscore (t : List Nat) :
    toSnakeCase (95 :: t) = toSnakeCase t := by
  simp [toSnakeCase, snakeJoin, snakeExpand]

lemma toSnakeCase_head_of_first_non_underscore (s : List Nat)
    (h : (s.dropWhile (fun c => c == 95)).head? ≠ some 32) :
    (toSnakeCase s).head? ≠ some 95 := by
  induction s with
  | nil => simp [toSnakeCase, snakeJoin]
  | cons c t ih =>
    by_cases hc : c = 95
    · subst hc
      rw [toSnakeCase_cons_underscore]
      apply ih
      simpa [List.dropWhile_cons] using h
    · by_cases hu : 65 ≤ c ∧ c ≤ 90
      · have h95 : ¬((c + 32) == 95) = true := by simp; omega
        have h32 : ¬((c + 32) == 32) = true := by simp; omega
        simp only [toSnakeCase, snakeJoin, snakeExpand, if_pos hu, List.cons_append,
          List.nil_append, List.dropWhile_cons]
        simp only [beq_self_eq_true, if_pos, h95, if_false]
        simp [h95, h32]
        omega
      · have hcb : ¬(c == 95) = true := by simpa using hc
        have hc32 : c ≠ 32 := by
          rw [List.dropWhile_cons, if_neg hcb] at h
          simpa using h
        simp only [toSnakeCase, snakeJoin, snakeExpand, if_neg hu, List.cons_append,
          List.nil_append, List.dropWhile_cons, if_neg hcb]
        simp [hc32, hc]


lemma chunkLoop_trace_mem (out : String) (hdr : List String) :
    ∀ (cs : List (List (List String))) (b : Bool) (w : World) (e : Effect),
      e ∈ w.trace → e ∈ (chunkLoop out hdr cs b w).trace := by
  intro cs
  induction cs with
  | nil => intro b w e h; cases b <;> simpa [chunkLoop] using h
  | cons ch rest ih =>
    intro b w e h
    cases b <;> exact ih false _ e (by simp [h])

lemma transformAndCommit_trace_mem (id m now out temp : String) (c : Csv)
    (w : World) (e : Effect) (h : e ∈ w.trace) :
    e ∈ (transformAndCommit id m now out temp c w).trace := by
  simp only [transformAndCommit, writeCsvChunks, List.mem_append]
  exact Or.inl (chunkLoop_trace_mem out c.header _ true w e h)

/-! ## Claims -/

/-- C1: the Version Tracker record for a dataset id is created or
overwritten only after all prior pipeline steps (staleness check passed,
download with status 200, chunked normalize-and-append, staging-file
cleanup) have fully succeeded; on any other outcome of `_process_dataset`
the tracker state is unchanged (write-after-success, never before). -/
theorem trackerWriteAfterSuccess (http : String → Except String Response)
    (now : String) (d : Dataset) (w w' : World)
    (h : processDataset http now d w = .ok w') :
    w'.tracker = w.tracker ∨
      (fullSuccess http d w ∧
        w'.tracker = updateMetadata w.tracker (d.identifier.getD "")
          (d.modified.getD "") now) :=
  processDataset_tracker_cases http now d w w' h

/-- Witness for C1: the short-circuit run on an up-to-date dataset leaves
the tracker unchanged. -/
theorem trackerWriteAfterSuccessWitness :
    wSkip.tracker = wSeen.tracker ∨
      (fullSuccess httpDown dsOk wSeen ∧
        wSkip.tracker = updateMetadata wSeen.tracker (dsOk.identifier.getD "")
          (dsOk.modified.getD "") "t1") :=
  trackerWriteAfterSuccess httpDown "t1" dsOk wSeen wSkip rfl

/-- C2: when the stored token matches the catalog token, `_process_dataset`
terminates immediately with only the skip log line — no network call, no
file access, no tracker change (the result state differs from the input
only in the log); consequently a second run after a fully successful first
run short-circuits the same way, regardless of the network. -/
theorem staleShortCircuitAndIdempotence :
    (∀ (http : String → Except String Response) (now : String) (d : Dataset)
        (w : World) (id : String), d.identifier = some id →
        needsUpdate w.tracker id (d.modified.getD "") = false →
        processDataset http now d w
          = .ok { w with log := w.log ++ ["Skipping " ++ id ++ " - already up to date"] })
    ∧ (∀ (http http2 : String → Except String Response) (now now2 : String)
        (d : Dataset) (w w1 : World) (id : String), d.identifier = some id →
        processDataset http now d w = .ok w1 → fullSuccess http d w →
        processDataset http2 now2 d w1
          = .ok { w1 with log := w1.log ++ ["Skipping " ++ id ++ " - already up to date"] }) := by
  constructor
  · intro http now d w id hid hnu
    exact processDataset_skip http now d w id hid hnu
  · intro http http2 now now2 d w w1 id hid hrun hfs
    obtain ⟨id', url, resp, hid', hnu, hurl, hhttp, hst, c, hbody⟩ := hfs
    rw [hid] at hid'
    injection hid' with hid2
    subst hid2
    rw [processDataset_success http now d w id url resp c hid hnu hurl hhttp hst hbody] at hrun
    simp only [Except.ok.injEq] at hrun
    apply processDataset_skip http2 now2 d w1 id hid
    rw [← hrun, transformAndCommit_tracker]
    exact needsUpdate_updateMetadata_self _ _ _ _

/-- Witness for C2: a concrete up-to-date skip, and a concrete second run
after a successful first run that short-circuits even though the network is
down. -/
theorem staleShortCircuitAndIdempotenceWitness :
    (processDataset httpDown "t9" dsOk wSeen
      = .ok { wSeen with log := wSeen.log ++ ["Skipping " ++ "ds1" ++ " - already up to date"] })
    ∧ (processDataset httpDown "t2" dsOk wAfterOk
      = .ok { wAfterOk with log := wAfterOk.log ++ ["Skipping " ++ "ds1" ++ " - already up to date"] }) := by
  constructor
  · exact staleShortCircuitAndIdempotence.1 httpDown "t9" dsOk wSeen "ds1" rfl rfl
  · exact staleShortCircuitAndIdempotence.2 httpOk httpDown "t1" "t2" dsOk w0 wAfterOk "ds1"
      rfl rfl ⟨"ds1", "http://cms.example/ds1.csv", ⟨200, .table csvSmall⟩,
        rfl, rfl, rfl, rfl, rfl, csvSmall, rfl⟩



/-- C3: `needs_update(id, tok)` is true iff no record exists for `id` or the
stored token differs from `tok` as a pure string inequality; in particular it
is true whenever no record exists, and after `record_processed(id, tok, t)`
it is false at `(id, tok)` and true at `(id, tok ++ "x")`. -/
theorem needsUpdateStringSemantics :
    (∀ (tr : TrackerDB) (id tok : String),
        needsUpdate tr id tok = true ↔
          dbLookup tr id = none ∨ ∃ r, dbLookup tr id = some r ∧ r.lastModified ≠ tok)
    ∧ (∀ (tr : TrackerDB) (id tok : String),
        dbLookup tr id = none → needsUpdate tr id tok = true)
    ∧ (∀ (tr : TrackerDB) (id tok now : String),
        needsUpdate (updateMetadata tr id tok now) id tok = false
        ∧ needsUpdate (updateMetadata tr id tok now) id (tok ++ "x") = true) := by
  refine ⟨?_, ?_, ?_⟩
  · intro tr id tok
    unfold needsUpdate
    cases h : dbLookup tr id with
    | none => simp
    | some r => simp [bne_iff_ne]
  · intro tr id tok h
    simp [needsUpdate, h]
  · intro tr id tok now
    refine ⟨needsUpdate_updateMetadata_self tr id tok now, ?_⟩
    simp only [needsUpdate, dbLookup_updateMetadata_self, bne_iff_ne]
    exact fun h => append_x_ne tok h.symm

/-- Witness for C3: applied to a concrete table. -/
theorem needsUpdateStringSemanticsWitness :
    needsUpdate (updateMetadata [] "ds1" "v1" "t0") "ds1" "v1" = false
    ∧ needsUpdate (updateMetadata [] "ds1" "v1" "t0") "ds1" ("v1" ++ "x") = true :=
  needsUpdateStringSemantics.2.2 [] "ds1" "v1" "t0"

/-- C4: for every input CSV and every chunk size `n` positive and smaller
than the row count, the chunked loop leaves the output file holding exactly
the normalized header and, cell for cell, the input rows in original order —
the first chunk written fresh (truncating any prior content of `out` in any
starting state `w`), later chunks appended. -/
theorem chunkedRoundTrip (out : String) (n : Nat) (hdr : List String)
    (rows : List (List String)) (w : World)
    (_hpos : 0 < n) (hlt : n < rows.length) :
    fsLookup (writeCsvChunks out n ⟨hdr, rows⟩ w).files out
      = some (.table ⟨hdr.map toSnakeCaseStr, rows⟩) := by
  apply writeCsvChunks_out
  intro hnil
  rw [hnil] at hlt
  simp at hlt

/-- Witness for C4: chunk size 1, three rows, two columns, non-multiple
boundary, on a state whose output path already has stale content. -/
theorem chunkedRoundTripWitness :
    fsLookup (writeCsvChunks "data/processed/ds1.csv" 1
        ⟨["A B", "C"], [["1", "2"], ["3", "4"], ["5", "6"]]⟩
        { w0 with files := [("data/processed/ds1.csv", .table ⟨["old"], [["x"]]⟩)] }).files
      "data/processed/ds1.csv"
      = some (.table ⟨["a__b", "c"], [["1", "2"], ["3", "4"], ["5", "6"]]⟩) := by
  have h := chunkedRoundTrip "data/processed/ds1.csv" 1 ["A B", "C"]
    [["1", "2"], ["3", "4"], ["5", "6"]]
    { w0 with files := [("data/processed/ds1.csv", .table ⟨["old"], [["x"]]⟩)] }
    (by decide) (by decide)
  rw [h]
  decide



/-- C5 (amended): on any response whose status is not 2xx,
`_process_dataset` is a silent no-op for the dataset: the download attempt
is made, but no output file is written, no metadata update occurs, and no
log line is produced — the result state's only new effect is the network
attempt, so in particular no transform step ran; contrapositively, the
pipeline proceeds to the transform phase only when the status is 2xx. -/
theorem nonOkStatusSilentNoOp (http : String → Except String Response)
    (now : String) (d : Dataset) (w : World) (id url : String) (resp : Response)
    (hid : d.identifier = some id)
    (hnu : needsUpdate w.tracker id (d.modified.getD "") = true)
    (hurl : getDownloadUrl d = .ok url)
    (hhttp : http url = .ok resp)
    (hst : ¬(200 ≤ resp.status ∧ resp.status < 300)) :
    processDataset http now d w
      = .ok { w with trace := w.trace ++ [Effect.net url] } := by
  have h200 : ¬ resp.status = 200 := by omega
  simp [processDataset, processBody, hid, hnu, hurl, hhttp, h200]

/-- Counterexample for C5 as stated: a 500 response yields a state with no
log line at all — the claimed per-dataset failure log line does not exist. -/
theorem nonOkStatusNoLogCounterexample :
    processDataset http500 "t1" dsOk w0
      = .ok { w0 with trace := [Effect.net "http://cms.example/ds1.csv"] }
    ∧ ({ w0 with trace := [Effect.net "http://cms.example/ds1.csv"] } : World).log = [] := by
  constructor
  · rfl
  · rfl

/-- Witness for C5 (amended): the concrete 500 run. -/
theorem nonOkStatusSilentNoOpWitness :
    processDataset http500 "t3" dsOk w0
      = .ok { w0 with trace := w0.trace ++ [Effect.net "http://cms.example/ds1.csv"] } :=
  nonOkStatusSilentNoOp http500 "t3" dsOk w0 "ds1" "http://cms.example/ds1.csv"
    ⟨500, .table csvSmall⟩ rfl rfl rfl rfl (by decide)

/-- C6 (code bug): a descriptor lacking the `identifier` key makes the
`except` handler itself raise `UnboundLocalError` (the f-string references
`dataset_id`, unbound because `dataset['identifier']` raised), so the
exception escapes `_process_dataset` instead of being reduced to a log
line. -/
theorem missingIdentifierEscapes :
    processDataset httpDown "t1" dsNoId w0
      = .error "UnboundLocalError: local variable referenced before assignment" := rfl

/-- C7 (code bug): `_to_snake_case("Patient Rating Score")` returns
`"patient__rating__score"` — the space before each capitalized word
survives `lstrip` and becomes a second underscore — contradicting the
`"patient_rating_score"` promised by the code's own comment and the spec. -/
theorem normalizeExampleMismatch :
    toSnakeCaseStr "Patient Rating Score" = "patient__rating__score"
    ∧ toSnakeCaseStr "Patient Rating Score" ≠ "patient_rating_score" := by
  constructor
  · rfl
  · decide



/-- Counterexample for C8 as stated: `"_a"` has no uppercase letter and no
space, yet `_to_snake_case` maps it to `"a"` (the leading underscore is
stripped), so the normalizer is not the identity on it. -/
theorem lowerNoSpaceIdentityCounterexample :
    toSnakeCaseStr "_a" = "a" ∧ ("a" : String) ≠ "_a" := by
  constructor
  · rfl
  · decide

/-- C8 (amended): for every ASCII column name with no uppercase letters,
no spaces, and not beginning with an underscore, `_to_snake_case` is the
identity. -/
theorem lowerNoSpaceIdentity (s : List Nat)
    (_ascii : ∀ c ∈ s, c < 128)
    (h1 : ∀ c ∈ s, ¬(65 ≤ c ∧ c ≤ 90))
    (h2 : ∀ c ∈ s, c ≠ 32)
    (h3 : s.head? ≠ some 95) :
    toSnakeCase s = s := by
  unfold toSnakeCase
  rw [snakeJoin_of_no_upper s h1, dropWhile_underscore_eq_self s h3,
    map_space_eq_self s h2]

/-- Witness for C8 (amended): `"total_cost"` is fixed by the normalizer. -/
theorem lowerNoSpaceIdentityWitness :
    toSnakeCase (pyStr "total_cost") = pyStr "total_cost" :=
  lowerNoSpaceIdentity (pyStr "total_cost") (by decide) (by decide) (by decide)
    (by decide)

/-- Counterexample for C9 as stated: on input `" a"` the normalizer returns
`"_a"`, which begins with an underscore — the leading space is replaced by
an underscore after the lstrip step, so the output can begin with `'_'`. -/
theorem leadingSpaceUnderscoreCounterexample :
    toSnakeCaseStr " a" = "_a" ∧ (toSnakeCase (pyStr " a")).head? = some 95 := by
  constructor
  · rfl
  · rfl

/-- C9 (amended): the normalizer's output begins with an underscore only
when the input's first non-underscore character is a space (which the
replace step, running after `lstrip('_')`, turns into a leading
underscore); for every ASCII input whose first non-underscore character is
not a space, the output does not begin with an underscore — in particular
all leading underscores, present or introduced by the uppercase rule, are
stripped. -/
theorem noLeadingUnderscoreUnlessSpace (s : List Nat)
    (_ascii : ∀ c ∈ s, c < 128)
    (h : (s.dropWhile (fun c => c == 95)).head? ≠ some 32) :
    (toSnakeCase s).head? ≠ some 95 :=
  toSnakeCase_head_of_first_non_underscore s h

/-- Witness for C9 (amended): `"Total Cost"` normalizes to a string not
beginning with an underscore. -/
theorem noLeadingUnderscoreUnlessSpaceWitness :
    (toSnakeCase (pyStr "Total Cost")).head? ≠ some 95 :=
  noLeadingUnderscoreUnlessSpace (pyStr "Total Cost") (by decide) (by decide)

/-- C10: a descriptor with `identifier` and a download URL but no
`modified` key is processed without failing: the token defaults to the
empty string, the dataset is downloaded and transformed (the success log
line is emitted and the tracker records `last_modified = ""`), and a
subsequent run with the key still absent short-circuits to a skip. -/
theorem missingModifiedTokenDefaults
    (http http2 : String → Except String Response) (now now2 : String)
    (d : Dataset) (w w1 : World) (id url : String) (resp : Response) (c : Csv)
    (hid : d.identifier = some id)
    (hmod : d.modified = none)
    (hfresh : dbLookup w.tracker id = none)
    (hurl : getDownloadUrl d = .ok url)
    (hhttp : http url = .ok resp)
    (hst : resp.status = 200)
    (hbody : resp.body = .table c)
    (hrun : processDataset http now d w = .ok w1) :
    dbLookup w1.tracker id = some ⟨"", now⟩
    ∧ Effect.net url ∈ w1.trace
    ∧ w1.log = w.log ++ ["Successfully processed " ++ id]
    ∧ processDataset http2 now2 d w1
        = .ok { w1 with log := w1.log ++ ["Skipping " ++ id ++ " - already up to date"] } := by
  have hmodD : d.modified.getD "" = "" := by rw [hmod]; rfl
  have hnu : needsUpdate w.tracker id (d.modified.getD "") = true := by
    simp [needsUpdate, hfresh]
  rw [processDataset_success http now d w id url resp c hid hnu hurl hhttp hst hbody] at hrun
  simp only [Except.ok.injEq] at hrun
  have htr : w1.tracker = updateMetadata w.tracker id "" now := by
    rw [← hrun, transformAndCommit_tracker, hmodD]
  refine ⟨?_, ?_, ?_, ?_⟩
  · rw [htr]
    exact dbLookup_updateMetadata_self w.tracker id "" now
  · rw [← hrun]
    apply transformAndCommit_trace_mem
    simp
  · rw [← hrun, transformAndCommit_log]
  · apply processDataset_skip http2 now2 d w1 id hid
    rw [hmodD, htr]
    exact needsUpdate_updateMetadata_self w.tracker id "" now

/-- Witness for C10: the concrete run of `dsNoMod` from the empty state,
followed by the skipping second run. -/
theorem missingModifiedTokenDefaultsWitness :
    dbLookup wAfterNoMod.tracker "ds2" = some ⟨"", "t1"⟩
    ∧ Effect.net "http://cms.example/ds2.csv" ∈ wAfterNoMod.trace
    ∧ wAfterNoMod.log = w0.log ++ ["Successfully processed " ++ "ds2"]
    ∧ processDataset httpOk "t2" dsNoMod wAfterNoMod
        = .ok { wAfterNoMod with
                log := wAfterNoMod.log ++ ["Skipping " ++ "ds2" ++ " - already up to date"] } :=
  missingModifiedTokenDefaults httpOk httpOk "t1" "t2" dsNoMod w0 wAfterNoMod
    "ds2" "http://cms.example/ds2.csv" ⟨200, .table csvSmall⟩ csvSmall
    rfl rfl rfl rfl rfl rfl rfl rfl


end HPCMS
